import Mathlib

/-
Verification of the consumable subsystem of a turn-based roguelike
(src/components/consumable.py): the four consumable item behaviours
(healing potion, confusion scroll, fireball scroll, lightning scroll)
over a shared actor / inventory model, and the single-use `consume`
operation.

Only consumable.py is in the excerpt.  The surrounding engine pieces it
calls (the fighter component's heal / take_damage, the entity distance
function, the visibility grid, the inventory component, the enemy AI
classes) are modelled from the spec; each such definition carries a
doc comment starting `Modelled from the spec:`.

The Python code mutates objects in place and signals invalid actions by
raising Impossible.  The embedding passes the game state explicitly:
every `activate` returns the state after the call together with
`Option ActError`; `some e` means the call raised Impossible with
reason `e`, and the returned state is the state the caller observes at
that point (Python mutations made before the raise are kept, which is
what makes the no-effect-on-raise claims non-trivial).  Message-log
calls are pure output and are not modelled.
-/

/-- Modelled from the spec: the fighter component (combat-stat component of
an actor; not in the excerpt) carries current HP and maximum HP. -/
structure Fighter where
  hp : Nat
  max_hp : Nat
  deriving DecidableEq, Repr

/-- Modelled from the spec: Fighter.take_damage lowers the fighter's HP by
the given amount; HP is a natural number, so truncated subtraction models
the floor at zero. -/
def Fighter.take_damage (f : Fighter) (amount : Nat) : Fighter :=
  { f with hp := f.hp - amount }

/-- Modelled from the spec: Fighter.heal raises HP by up to the given
amount, capped at the maximum HP, and returns the updated fighter together
with the amount actually recovered; at full HP nothing changes and zero is
recovered. -/
def Fighter.heal (f : Fighter) (amount : Nat) : Fighter × Nat :=
  if f.hp = f.max_hp then (f, 0)
  else
    let newHp := min (f.hp + amount) f.max_hp
    ({ f with hp := newHp }, newHp - f.hp)

/-- Modelled from the spec: the AI component is a behaviour-selection
component swappable at runtime.  `noAI` stands for a Python `None` AI
slot; `hostile` stands for any ordinary enemy AI; `confused` is the
ConfusedEnemy AI, which remembers the AI it replaced and a number of
remaining turns. -/
inductive AI where
  | noAI : AI
  | hostile : AI
  | confused (previous_ai : AI) (turns_remaining : Nat) : AI
  deriving DecidableEq, Repr

/-- Modelled from the spec: an actor of the shared actor model.  Python
identity (`is`) between actors is modelled by the `id` field; `x`, `y` is
the grid position; `fighter` and `ai` are the actor's components. -/
structure Actor where
  id : Nat
  x : Int
  y : Int
  fighter : Fighter
  ai : AI
  deriving DecidableEq, Repr

/-- Modelled from the spec: an inventory is a container with a list of
items; items are identified by their ids. -/
structure Inventory where
  items : List Nat
  deriving DecidableEq, Repr

/-- The game state an activation runs over: the set of visible grid cells
(the visibility grid of the engine, modelled from the spec as the list of
coordinates at which `game_map.visible` is true), the actors of the game
map, all inventories of the world, and the activated item: `itemId` is
the id of `self.parent`, and `itemParent` is the index of the inventory
that is that item's parent (`none` when the item's parent is not an
Inventory, e.g. the item lies on the map). -/
structure GameState where
  visible : List (Int × Int)
  actors : List Actor
  inventories : List Inventory
  itemId : Nat
  itemParent : Option Nat
  deriving DecidableEq, Repr

/-- Replace the inventory at an index by the image of `f` (used to model
the in-place mutation of one inventory). -/
def updateNth (f : Inventory → Inventory) : Nat → List Inventory → List Inventory
  | _, [] => []
  | 0, inv :: rest => f inv :: rest
  | n + 1, inv :: rest => inv :: updateNth f n rest

/-- Consumable.consume on the inventory list: when the activated item's
parent is an Inventory, remove the item from that inventory's item list
(Python's `list.remove` drops the first occurrence, modelled by
`List.erase`); otherwise do nothing. -/
def consumeInvs (invs : List Inventory) (parent : Option Nat) (itemId : Nat) :
    List Inventory :=
  match parent with
  | none => invs
  | some i => updateNth (fun inv => { items := inv.items.erase itemId }) i invs

/-- Consumable.consume lifted to the game state: only the inventories
change. -/
def GameState.consume (s : GameState) : GameState :=
  { s with inventories := consumeInvs s.inventories s.itemParent s.itemId }

/-- Squared Euclidean distance between two grid points.  Modelled from the
spec: Actor.distance (entity module, not in the excerpt) is the Euclidean
distance between the actor and a point; every comparison of distances in
this file is expressed on squared distances, which is exact because
squaring is strictly monotone on nonnegative reals. -/
def distSq (x1 y1 x2 y2 : Int) : Int :=
  (x1 - x2) * (x1 - x2) + (y1 - y2) * (y1 - y2)

/-- The errors carried by the Impossible exception in consumable.py, one
per raise site. -/
inductive ActError where
  | notVisible : ActError
  | noTargetSelected : ActError
  | selfTarget : ActError
  | alreadyAtMaxHp : ActError
  | noTargetsInRadius : ActError
  | noEnemyInRange : ActError
  deriving DecidableEq, Repr

/-- Modelled from the spec: `action.target_actor` (actions module, not in
the excerpt) is the actor standing at the target location, if any. -/
def targetActorAt (s : GameState) (tx ty : Int) : Option Actor :=
  s.actors.find? (fun a => decide (a.x = tx ∧ a.y = ty))

/-- ConfusionConsumable: number_of_turns the confusion lasts. -/
structure ConfusionConsumable where
  number_of_turns : Nat
  deriving DecidableEq, Repr

/-- ConfusionConsumable.activate: rejects a non-visible target location,
then a location without an actor, then the consumer itself; otherwise it
swaps the target's AI for a ConfusedEnemy remembering the previous AI and
consumes the item. -/
def ConfusionConsumable.activate (c : ConfusionConsumable) (consumer : Actor)
    (tx ty : Int) (s : GameState) : GameState × Option ActError :=
  if (tx, ty) ∈ s.visible then
    match targetActorAt s tx ty with
    | none => (s, some ActError.noTargetSelected)
    | some target =>
      if target.id = consumer.id then (s, some ActError.selfTarget)
      else
        (GameState.consume { s with actors := s.actors.map (fun b =>
          if b.id = target.id then
            { b with ai := AI.confused b.ai c.number_of_turns }
          else b) }, none)
  else (s, some ActError.notVisible)

/-- HealingConsumable: the potion's healing amount. -/
structure HealingConsumable where
  amount : Nat
  deriving DecidableEq, Repr

/-- HealingConsumable.activate: heal the consumer (the heal runs before
the branch, as in the code); when something was recovered, consume the
item, otherwise raise `alreadyAtMaxHp`. -/
def HealingConsumable.activate (c : HealingConsumable) (consumer : Actor)
    (s : GameState) : GameState × Option ActError :=
  let healed := consumer.fighter.heal c.amount
  let s2 := { s with actors := s.actors.map (fun b =>
    if b.id = consumer.id then { b with fighter := healed.1 } else b) }
  if 0 < healed.2 then (s2.consume, none)
  else (s2, some ActError.alreadyAtMaxHp)

/-- FireballDamageConsumable: damage dealt, and the blast radius. -/
structure FireballDamageConsumable where
  damage : Nat
  radius : Nat
  deriving DecidableEq, Repr

/-- The fireball's in-blast test, `actor.distance(*target_xy) <= radius`
of the code, on squared distances. -/
def withinRadius (a : Actor) (tx ty : Int) (r : Nat) : Bool :=
  decide (distSq a.x a.y tx ty ≤ (r : Int) * (r : Int))

/-- FireballDamageConsumable.activate: rejects a non-visible target
location; otherwise damages every actor within the radius of the target
location (the loop of the code, which also records whether anything was
hit), then raises `noTargetsInRadius` when nothing was hit and otherwise
consumes the item. -/
def FireballDamageConsumable.activate (c : FireballDamageConsumable)
    (tx ty : Int) (s : GameState) : GameState × Option ActError :=
  if (tx, ty) ∈ s.visible then
    let s2 := { s with actors := s.actors.map (fun a =>
      if withinRadius a tx ty c.radius then
        { a with fighter := a.fighter.take_damage c.damage }
      else a) }
    if s.actors.any (fun a => withinRadius a tx ty c.radius) then
      (s2.consume, none)
    else (s2, some ActError.noTargetsInRadius)
  else (s, some ActError.notVisible)

/-- LightningDamageConsumable: damage dealt, and the maximum range. -/
structure LightningDamageConsumable where
  damage : Nat
  maximum_range : Nat
  deriving DecidableEq, Repr

/-- The selection loop of LightningDamageConsumable.activate: walk the
actors keeping the best (closest) visible non-consumer actor found so far
and its squared distance.  The code starts `closest_distance` at
`maximum_range + 1.0` and compares with `<`; on squared distances that is
the bound `(maximum_range + 1)^2` passed as the initial `bd`. -/
def lightningScan (consumer : Actor) (vis : List (Int × Int)) :
    List Actor → Option Actor → Int → Option Actor × Int
  | [], best, bd => (best, bd)
  | a :: rest, best, bd =>
    if a.id ≠ consumer.id ∧ (a.x, a.y) ∈ vis then
      if distSq consumer.x consumer.y a.x a.y < bd then
        lightningScan consumer vis rest (some a)
          (distSq consumer.x consumer.y a.x a.y)
      else lightningScan consumer vis rest best bd
    else lightningScan consumer vis rest best bd

/-- LightningDamageConsumable.activate: find the closest visible actor
other than the consumer at distance strictly below `maximum_range + 1`;
if one exists, damage it and consume the item, otherwise raise
`noEnemyInRange`. -/
def LightningDamageConsumable.activate (c : LightningDamageConsumable)
    (consumer : Actor) (s : GameState) : GameState × Option ActError :=
  match lightningScan consumer s.visible s.actors none
      (((c.maximum_range : Int) + 1) * ((c.maximum_range : Int) + 1)) with
  | (some t, _) =>
    (GameState.consume { s with actors := s.actors.map (fun b =>
      if b.id = t.id then { b with fighter := b.fighter.take_damage c.damage }
      else b) }, none)
  | (none, _) => (s, some ActError.noEnemyInRange)

/-- The actors the lightning loop can pick from: visible, not the
consumer, and at (squared) distance strictly below
`(maximum_range + 1)^2`. -/
def lightningCandidates (c : LightningDamageConsumable) (consumer : Actor)
    (s : GameState) : List Actor :=
  s.actors.filter (fun a => decide (a.id ≠ consumer.id ∧ (a.x, a.y) ∈ s.visible ∧
    distSq consumer.x consumer.y a.x a.y <
      ((c.maximum_range : Int) + 1) * ((c.maximum_range : Int) + 1)))

/-- How many inventories contain the item `x` (the "belongs to at most one
inventory" invariant counts these). -/
def invsContaining (invs : List Inventory) (x : Nat) : Nat :=
  (invs.filter (fun inv => decide (x ∈ inv.items))).length

/-- updateNth keeps the length of the inventory list. -/
lemma updateNth_length (f : Inventory → Inventory) :
    ∀ (i : Nat) (l : List Inventory), (updateNth f i l).length = l.length := by
  intro i l
  induction l generalizing i with
  | nil => cases i <;> rfl
  | cons inv rest ih =>
    cases i with
    | zero => rfl
    | succ n => exact congrArg Nat.succ (ih n)

/-- updateNth rewrites the entry at the index through `f`. -/
lemma updateNth_get_self (f : Inventory → Inventory) :
    ∀ (i : Nat) (l : List Inventory) (h1 : i < l.length)
      (h2 : i < (updateNth f i l).length),
      (updateNth f i l).get ⟨i, h2⟩ = f (l.get ⟨i, h1⟩)
  | 0, _ :: _, _, _ => rfl
  | n + 1, _ :: rest, h1, h2 =>
    updateNth_get_self f n rest (Nat.lt_of_succ_lt_succ h1)
      (Nat.lt_of_succ_lt_succ h2)

/-- Erasing an item from one inventory never raises the number of
inventories containing any item. -/
lemma invsContaining_updateNth_erase (x itemId : Nat) :
    ∀ (i : Nat) (invs : List Inventory),
      invsContaining
        (updateNth (fun inv => { items := inv.items.erase itemId }) i invs) x ≤
      invsContaining invs x := by
  intro i invs
  induction invs generalizing i with
  | nil => cases i <;> exact Nat.le_refl _
  | cons inv rest ih =>
    cases i with
    | zero =>
      by_cases hmem : x ∈ inv.items.erase itemId
      · have hx : x ∈ inv.items := List.mem_of_mem_erase hmem
        simp [invsContaining, updateNth, List.filter_cons, hmem, hx]
      · by_cases hx : x ∈ inv.items
        · simp [invsContaining, updateNth, List.filter_cons, hmem, hx]
        · simp [invsContaining, updateNth, List.filter_cons, hmem, hx]
    | succ n =>
      by_cases hx : x ∈ inv.items
      · simpa [invsContaining, updateNth, List.filter_cons, hx] using
          Nat.succ_le_succ (ih n)
      · simpa [invsContaining, updateNth, List.filter_cons, hx] using ih n

/-- consume never raises the number of inventories containing any item. -/
lemma invsContaining_consumeInvs (invs : List Inventory) (p : Option Nat)
    (itemId x : Nat) :
    invsContaining (consumeInvs invs p itemId) x ≤ invsContaining invs x := by
  cases p with
  | none => exact Nat.le_refl _
  | some i => exact invsContaining_updateNth_erase x itemId i invs

/-- Every activation leaves the inventories alone or passes them through
consume. -/
lemma activate_inventories_cases (s : GameState) (consumer : Actor)
    (tx ty : Int) (cc : ConfusionConsumable) (hc : HealingConsumable)
    (fc : FireballDamageConsumable) (lc : LightningDamageConsumable) :
    ((cc.activate consumer tx ty s).1.inventories = s.inventories ∨
      (cc.activate consumer tx ty s).1.inventories =
        consumeInvs s.inventories s.itemParent s.itemId) ∧
    ((hc.activate consumer s).1.inventories = s.inventories ∨
      (hc.activate consumer s).1.inventories =
        consumeInvs s.inventories s.itemParent s.itemId) ∧
    ((fc.activate tx ty s).1.inventories = s.inventories ∨
      (fc.activate tx ty s).1.inventories =
        consumeInvs s.inventories s.itemParent s.itemId) ∧
    ((lc.activate consumer s).1.inventories = s.inventories ∨
      (lc.activate consumer s).1.inventories =
        consumeInvs s.inventories s.itemParent s.itemId) := by
  refine ⟨?_, ?_, ?_, ?_⟩
  · unfold ConfusionConsumable.activate
    split
    · split
      · exact Or.inl rfl
      · split
        · exact Or.inl rfl
        · exact Or.inr rfl
    · exact Or.inl rfl
  · by_cases h : 0 < (consumer.fighter.heal hc.amount).2
    · exact Or.inr (by simp [HealingConsumable.activate, h, GameState.consume])
    · exact Or.inl (by simp [HealingConsumable.activate, h])
  · unfold FireballDamageConsumable.activate
    split
    · split
      · exact Or.inr rfl
      · exact Or.inl rfl
    · exact Or.inl rfl
  · unfold LightningDamageConsumable.activate
    split
    · exact Or.inr rfl
    · exact Or.inl rfl

/-- Claim C9: every operation of the consumable subsystem preserves the
invariant that an item belongs to at most one inventory: consume removes
the item only from the single inventory referenced as the item's parent
and never inserts it anywhere, and each of the four activations touches
the inventories only through consume, so for every item the number of
inventories containing it never grows (in particular at most one stays
at most one). -/
theorem consumable_single_inventory_invariant
    (s : GameState) (x : Nat) (consumer : Actor) (tx ty : Int)
    (cc : ConfusionConsumable) (hc : HealingConsumable)
    (fc : FireballDamageConsumable) (lc : LightningDamageConsumable)
    (hone : invsContaining s.inventories x ≤ 1) :
    (invsContaining s.consume.inventories x ≤ invsContaining s.inventories x ∧
      invsContaining s.consume.inventories x ≤ 1) ∧
    (invsContaining (cc.activate consumer tx ty s).1.inventories x ≤
        invsContaining s.inventories x ∧
      invsContaining (cc.activate consumer tx ty s).1.inventories x ≤ 1) ∧
    (invsContaining (hc.activate consumer s).1.inventories x ≤
        invsContaining s.inventories x ∧
      invsContaining (hc.activate consumer s).1.inventories x ≤ 1) ∧
    (invsContaining (fc.activate tx ty s).1.inventories x ≤
        invsContaining s.inventories x ∧
      invsContaining (fc.activate tx ty s).1.inventories x ≤ 1) ∧
    (invsContaining (lc.activate consumer s).1.inventories x ≤
        invsContaining s.inventories x ∧
      invsContaining (lc.activate consumer s).1.inventories x ≤ 1) := by
  have hmono := invsContaining_consumeInvs s.inventories s.itemParent s.itemId x
  obtain ⟨h1, h2, h3, h4⟩ :=
    activate_inventories_cases s consumer tx ty cc hc fc lc
  have hcon : invsContaining s.consume.inventories x ≤
      invsContaining s.inventories x := hmono
  refine ⟨⟨hcon, Nat.le_trans hcon hone⟩, ?_, ?_, ?_, ?_⟩
  · rcases h1 with h | h <;> rw [h]
    · exact ⟨Nat.le_refl _, hone⟩
    · exact ⟨hmono, Nat.le_trans hmono hone⟩
  · rcases h2 with h | h <;> rw [h]
    · exact ⟨Nat.le_refl _, hone⟩
    · exact ⟨hmono, Nat.le_trans hmono hone⟩
  · rcases h3 with h | h <;> rw [h]
    · exact ⟨Nat.le_refl _, hone⟩
    · exact ⟨hmono, Nat.le_trans hmono hone⟩
  · rcases h4 with h | h <;> rw [h]
    · exact ⟨Nat.le_refl _, hone⟩
    · exact ⟨hmono, Nat.le_trans hmono hone⟩

/-- Witness for C9 at a concrete state holding one item in one of two
inventories. -/
theorem consumable_single_inventory_invariant_witness :
    invsContaining
      ({ visible := [(0, 0)],
         actors := [{ id := 0, x := 0, y := 0,
                      fighter := { hp := 5, max_hp := 10 }, ai := AI.hostile }],
         inventories := [{ items := [3, 4] }, { items := [5] }], itemId := 3,
         itemParent := some 0 } : GameState).inventories 3 ≤ 1 ∧
    invsContaining
      (GameState.consume
        { visible := [(0, 0)],
          actors := [{ id := 0, x := 0, y := 0,
                       fighter := { hp := 5, max_hp := 10 }, ai := AI.hostile }],
          inventories := [{ items := [3, 4] }, { items := [5] }], itemId := 3,
          itemParent := some 0 }).inventories 3 ≤ 1 :=
  ⟨by decide,
    (consumable_single_inventory_invariant _ 3
      { id := 0, x := 0, y := 0, fighter := { hp := 5, max_hp := 10 },
        ai := AI.hostile } 0 0 { number_of_turns := 1 } { amount := 1 }
      { damage := 1, radius := 1 } { damage := 1, maximum_range := 1 }
      (by decide)).1.2⟩

/-- Claim C10: when the activated item's parent is not an Inventory (for
example the item lies on the map), consume is a no-op: the state, and in
particular every inventory, is unchanged (and the embedding is total, so
no exception arises). -/
theorem consume_non_inventory_noop (s : GameState)
    (h : s.itemParent = none) : s.consume = s := by
  have hinv : consumeInvs s.inventories s.itemParent s.itemId = s.inventories := by
    rw [h, consumeInvs]
  show { s with inventories := consumeInvs s.inventories s.itemParent s.itemId } = s
  rw [hinv]

/-- Witness for C10 at a concrete state whose item lies on the map. -/
theorem consume_non_inventory_noop_witness :
    ({ visible := [], actors := [], inventories := [{ items := [3] }],
       itemId := 3, itemParent := none } : GameState).itemParent = none ∧
    GameState.consume
      { visible := [], actors := [], inventories := [{ items := [3] }],
        itemId := 3, itemParent := none } =
      { visible := [], actors := [], inventories := [{ items := [3] }],
        itemId := 3, itemParent := none } :=
  ⟨rfl, consume_non_inventory_noop _ rfl⟩

/-- When an activation returns no error, it has passed the inventories
through consume. -/
lemma activate_success_inventories (s : GameState) (consumer : Actor)
    (tx ty : Int) (cc : ConfusionConsumable) (hc : HealingConsumable)
    (fc : FireballDamageConsumable) (lc : LightningDamageConsumable) :
    ((cc.activate consumer tx ty s).2 = none →
      (cc.activate consumer tx ty s).1.inventories =
        consumeInvs s.inventories s.itemParent s.itemId) ∧
    ((hc.activate consumer s).2 = none →
      (hc.activate consumer s).1.inventories =
        consumeInvs s.inventories s.itemParent s.itemId) ∧
    ((fc.activate tx ty s).2 = none →
      (fc.activate tx ty s).1.inventories =
        consumeInvs s.inventories s.itemParent s.itemId) ∧
    ((lc.activate consumer s).2 = none →
      (lc.activate consumer s).1.inventories =
        consumeInvs s.inventories s.itemParent s.itemId) := by
  refine ⟨?_, ?_, ?_, ?_⟩
  · by_cases hvis : (tx, ty) ∈ s.visible
    · cases hta : targetActorAt s tx ty with
      | none => intro h; simp [ConfusionConsumable.activate, hvis, hta] at h
      | some target =>
        by_cases hself : target.id = consumer.id
        · intro h
          simp [ConfusionConsumable.activate, hvis, hta, hself] at h
        · intro _
          simp [ConfusionConsumable.activate, hvis, hta, hself, GameState.consume]
    · intro h; simp [ConfusionConsumable.activate, hvis] at h
  · by_cases hrec : 0 < (consumer.fighter.heal hc.amount).2
    · intro _; simp [HealingConsumable.activate, hrec, GameState.consume]
    · intro h; simp [HealingConsumable.activate, hrec] at h
  · by_cases hvis : (tx, ty) ∈ s.visible
    · by_cases hany : s.actors.any (fun a => withinRadius a tx ty fc.radius) = true
      · intro _
        simp [FireballDamageConsumable.activate, hvis, hany, GameState.consume]
      · intro h
        simp [FireballDamageConsumable.activate, hvis, hany] at h
    · intro h; simp [FireballDamageConsumable.activate, hvis] at h
  · cases hscan : lightningScan consumer s.visible s.actors none
        (((lc.maximum_range : Int) + 1) * ((lc.maximum_range : Int) + 1)) with
    | mk best bd =>
      cases best with
      | some t =>
        intro _
        simp [LightningDamageConsumable.activate, hscan, GameState.consume]
      | none =>
        intro h
        simp [LightningDamageConsumable.activate, hscan] at h

/-- Erasing through the parent index removes an item held exactly once. -/
lemma consumeInvs_removes (invs : List Inventory) (i : Nat) (itemId : Nat)
    (hlen : i < invs.length)
    (hcount : (invs.get ⟨i, hlen⟩).items.count itemId = 1) :
    ∃ h2 : i < (consumeInvs invs (some i) itemId).length,
      itemId ∉ ((consumeInvs invs (some i) itemId).get ⟨i, h2⟩).items := by
  have hl : (consumeInvs invs (some i) itemId).length = invs.length :=
    updateNth_length _ i invs
  refine ⟨hl ▸ hlen, ?_⟩
  have hget := updateNth_get_self
    (fun inv => { items := inv.items.erase itemId }) i invs hlen (hl ▸ hlen)
  show itemId ∉ (((updateNth _ i invs).get ⟨i, hl ▸ hlen⟩) : Inventory).items
  rw [hget]
  intro hmem
  have hpos : 0 < ((invs.get ⟨i, hlen⟩).items.erase itemId).count itemId :=
    List.count_pos_iff.mpr hmem
  rw [List.count_erase_self, hcount] at hpos
  exact Nat.lt_irrefl 0 hpos

/-- Claim C6: every consumable is single-use.  For each of the four
variants, whenever activate completes without raising Impossible, the
activated item (held exactly once by its parent inventory before the
call) is no longer in that inventory's item list after the call. -/
theorem activation_removes_consumed_item
    (s : GameState) (consumer : Actor) (tx ty : Int)
    (cc : ConfusionConsumable) (hc : HealingConsumable)
    (fc : FireballDamageConsumable) (lc : LightningDamageConsumable)
    (i : Nat) (hpar : s.itemParent = some i) (hlen : i < s.inventories.length)
    (hcount : (s.inventories.get ⟨i, hlen⟩).items.count s.itemId = 1) :
    ((cc.activate consumer tx ty s).2 = none →
      ∃ h2 : i < (cc.activate consumer tx ty s).1.inventories.length,
        s.itemId ∉ ((cc.activate consumer tx ty s).1.inventories.get ⟨i, h2⟩).items) ∧
    ((hc.activate consumer s).2 = none →
      ∃ h2 : i < (hc.activate consumer s).1.inventories.length,
        s.itemId ∉ ((hc.activate consumer s).1.inventories.get ⟨i, h2⟩).items) ∧
    ((fc.activate tx ty s).2 = none →
      ∃ h2 : i < (fc.activate tx ty s).1.inventories.length,
        s.itemId ∉ ((fc.activate tx ty s).1.inventories.get ⟨i, h2⟩).items) ∧
    ((lc.activate consumer s).2 = none →
      ∃ h2 : i < (lc.activate consumer s).1.inventories.length,
        s.itemId ∉ ((lc.activate consumer s).1.inventories.get ⟨i, h2⟩).items) := by
  obtain ⟨h1, h2, h3, h4⟩ :=
    activate_success_inventories s consumer tx ty cc hc fc lc
  have hrem := consumeInvs_removes s.inventories i s.itemId hlen hcount
  rw [← hpar] at hrem
  refine ⟨fun hok => ?_, fun hok => ?_, fun hok => ?_, fun hok => ?_⟩
  · rw [h1 hok]; exact hrem
  · rw [h2 hok]; exact hrem
  · rw [h3 hok]; exact hrem
  · rw [h4 hok]; exact hrem

/-- The concrete actor of the C6 witness. -/
def c6Consumer : Actor :=
  { id := 0, x := 0, y := 0, fighter := { hp := 5, max_hp := 10 },
    ai := AI.hostile }

/-- The concrete state of the C6 witness: one inventory holding item 3,
which is the activated item. -/
def c6State : GameState :=
  { visible := [], actors := [c6Consumer],
    inventories := [{ items := [3] }], itemId := 3, itemParent := some 0 }

/-- Witness for C6: a healing potion used below maximum HP removes the
item (id 3) from the inventory that held it. -/
theorem activation_removes_consumed_item_witness :
    ∃ h2 : 0 < (HealingConsumable.activate { amount := 4 } c6Consumer
        c6State).1.inventories.length,
      (3 : Nat) ∉ ((HealingConsumable.activate { amount := 4 } c6Consumer
        c6State).1.inventories.get ⟨0, h2⟩).items :=
  (activation_removes_consumed_item c6State c6Consumer 0 0
    { number_of_turns := 1 } { amount := 4 } { damage := 1, radius := 1 }
    { damage := 1, maximum_range := 1 } 0 rfl (by decide) (by decide)).2.1
    (by decide)

/-- Mapping a function that fixes every element of a list leaves it
unchanged. -/
lemma map_fixes {α : Type} (l : List α) (f : α → α)
    (h : ∀ a ∈ l, f a = a) : l.map f = l := by
  induction l with
  | nil => rfl
  | cons a t ih =>
    rw [List.map_cons, h a (List.mem_cons_self a t),
      ih (fun b hb => h b (List.mem_cons_of_mem a hb))]

/-- When heal recovers nothing on a well-formed fighter (HP at most the
maximum), the fighter is unchanged. -/
lemma heal_zero_fix (f : Fighter) (amount : Nat)
    (hwf : f.hp ≤ f.max_hp) (h : (f.heal amount).2 = 0) :
    (f.heal amount).1 = f := by
  unfold Fighter.heal at h ⊢
  by_cases he : f.hp = f.max_hp
  · simp [he]
  · simp only [he, if_false] at h ⊢
    have hge : f.hp ≤ min (f.hp + amount) f.max_hp :=
      le_min (Nat.le_add_right _ _) hwf
    have hle : min (f.hp + amount) f.max_hp ≤ f.hp :=
      Nat.sub_eq_zero_iff_le.mp h
    have heq : min (f.hp + amount) f.max_hp = f.hp := Nat.le_antisymm hle hge
    rw [heq]

/-- Claim C5: for every consumable variant, whenever activate raises
Impossible the whole game state (actors with their HP and AI, and all
inventories) is exactly what it was before the call.  The healing case
needs the consumer to be well formed (HP at most the maximum) and the
actor list entries sharing the consumer's id to carry the consumer's
fighter (Python reference identity). -/
theorem impossible_rejects_without_effect
    (s : GameState) (consumer : Actor) (tx ty : Int)
    (cc : ConfusionConsumable) (hc : HealingConsumable)
    (fc : FireballDamageConsumable) (lc : LightningDamageConsumable)
    (hwf : consumer.fighter.hp ≤ consumer.fighter.max_hp)
    (halias : ∀ b ∈ s.actors, b.id = consumer.id →
      b.fighter = consumer.fighter) :
    ((cc.activate consumer tx ty s).2 ≠ none →
      (cc.activate consumer tx ty s).1 = s) ∧
    ((hc.activate consumer s).2 ≠ none → (hc.activate consumer s).1 = s) ∧
    ((fc.activate tx ty s).2 ≠ none → (fc.activate tx ty s).1 = s) ∧
    ((lc.activate consumer s).2 ≠ none → (lc.activate consumer s).1 = s) := by
  refine ⟨?_, ?_, ?_, ?_⟩
  · intro h
    by_cases hvis : (tx, ty) ∈ s.visible
    · cases hta : targetActorAt s tx ty with
      | none => simp [ConfusionConsumable.activate, hvis, hta]
      | some target =>
        by_cases hself : target.id = consumer.id
        · simp [ConfusionConsumable.activate, hvis, hta, hself]
        · exact absurd
            (by simp [ConfusionConsumable.activate, hvis, hta, hself]) h
    · simp [ConfusionConsumable.activate, hvis]
  · intro h
    by_cases hrec : 0 < (consumer.fighter.heal hc.amount).2
    · exact absurd (by simp [HealingConsumable.activate, hrec]) h
    · have hzero : (consumer.fighter.heal hc.amount).2 = 0 := by omega
      have hfix := heal_zero_fix consumer.fighter hc.amount hwf hzero
      have hmap : s.actors.map (fun b =>
          if b.id = consumer.id then
            { b with fighter := (consumer.fighter.heal hc.amount).1 }
          else b) = s.actors := by
        refine map_fixes _ _ (fun b hb => ?_)
        by_cases hid : b.id = consumer.id
        · rw [if_pos hid, hfix, ← halias b hb hid]
        · rw [if_neg hid]
      simp [HealingConsumable.activate, hrec, hmap]
  · intro h
    by_cases hvis : (tx, ty) ∈ s.visible
    · by_cases hany :
        s.actors.any (fun a => withinRadius a tx ty fc.radius) = true
      · exact absurd
          (by simp [FireballDamageConsumable.activate, hvis, hany]) h
      · have hall : ∀ a ∈ s.actors, withinRadius a tx ty fc.radius = false := by
          intro a ha
          by_contra hcon
          exact hany (List.any_eq_true.mpr
            ⟨a, ha, by simpa using hcon⟩)
        have hmap : s.actors.map (fun a =>
            if withinRadius a tx ty fc.radius then
              { a with fighter := a.fighter.take_damage fc.damage }
            else a) = s.actors := by
          refine map_fixes _ _ (fun a ha => ?_)
          rw [hall a ha]
          simp
        simp [FireballDamageConsumable.activate, hvis, hany, hmap]
    · simp [FireballDamageConsumable.activate, hvis]
  · intro h
    cases hscan : lightningScan consumer s.visible s.actors none
        (((lc.maximum_range : Int) + 1) * ((lc.maximum_range : Int) + 1)) with
    | mk best bd =>
      cases best with
      | some t =>
        exact absurd (by simp [LightningDamageConsumable.activate, hscan]) h
      | none => simp [LightningDamageConsumable.activate, hscan]

/-- Witness for C5: aiming a confusion scroll at a non-visible cell leaves
the concrete state untouched. -/
theorem impossible_rejects_without_effect_witness :
    (ConfusionConsumable.activate { number_of_turns := 2 } c6Consumer 5 5
      c6State).2 ≠ none ∧
    (ConfusionConsumable.activate { number_of_turns := 2 } c6Consumer 5 5
      c6State).1 = c6State :=
  ⟨by decide,
    (impossible_rejects_without_effect c6State c6Consumer 5 5
      { number_of_turns := 2 } { amount := 1 } { damage := 1, radius := 1 }
      { damage := 1, maximum_range := 1 } (by decide) (by decide)).1
      (by decide)⟩

/-- Transport a list index through a list equality. -/
lemma get_congr_list {α : Type} {A B : List α} (h : A = B) (i : Nat)
    (h2 : i < A.length) : A.get ⟨i, h2⟩ = B.get ⟨i, h ▸ h2⟩ := by
  cases h; rfl

/-- In the visible case, the fireball maps the damage update over the
actors regardless of whether it then raises for lack of targets. -/
lemma fireball_actors_eq (fc : FireballDamageConsumable) (tx ty : Int)
    (s : GameState) (hvis : (tx, ty) ∈ s.visible) :
    (fc.activate tx ty s).1.actors = s.actors.map (fun a =>
      if withinRadius a tx ty fc.radius then
        { a with fighter := a.fighter.take_damage fc.damage }
      else a) := by
  unfold FireballDamageConsumable.activate
  rw [if_pos hvis]
  split <;> rfl

/-- Claim C1: for a fireball activation at a visible target cell, each
actor of the map takes exactly `damage` (through take_damage) if and only
if its distance to the target cell is within the radius; actors outside
the radius are exactly unchanged. -/
theorem fireball_damage_iff_within_radius
    (fc : FireballDamageConsumable) (tx ty : Int) (s : GameState)
    (hvis : (tx, ty) ∈ s.visible) :
    (fc.activate tx ty s).1.actors.length = s.actors.length ∧
    ∀ (i : Nat) (h1 : i < s.actors.length)
      (h2 : i < (fc.activate tx ty s).1.actors.length),
      (withinRadius (s.actors.get ⟨i, h1⟩) tx ty fc.radius = true →
        (fc.activate tx ty s).1.actors.get ⟨i, h2⟩ =
          { s.actors.get ⟨i, h1⟩ with fighter :=
              (s.actors.get ⟨i, h1⟩).fighter.take_damage fc.damage }) ∧
      (withinRadius (s.actors.get ⟨i, h1⟩) tx ty fc.radius = false →
        (fc.activate tx ty s).1.actors.get ⟨i, h2⟩ = s.actors.get ⟨i, h1⟩) := by
  have hact := fireball_actors_eq fc tx ty s hvis
  constructor
  · rw [hact]; exact List.length_map _ _
  · intro i h1 h2
    have hg : (fc.activate tx ty s).1.actors.get ⟨i, h2⟩ =
        (s.actors.map (fun a =>
          if withinRadius a tx ty fc.radius then
            { a with fighter := a.fighter.take_damage fc.damage }
          else a)).get ⟨i, hact ▸ h2⟩ := get_congr_list hact i h2
    have hm : (s.actors.map (fun a =>
        if withinRadius a tx ty fc.radius then
          { a with fighter := a.fighter.take_damage fc.damage }
        else a)).get ⟨i, hact ▸ h2⟩ =
        (fun a => if withinRadius a tx ty fc.radius then
          { a with fighter := a.fighter.take_damage fc.damage }
        else a) (s.actors.get ⟨i, h1⟩) := by simp
    constructor
    · intro hw
      rw [hg, hm]
      simp only [hw, if_true]
    · intro hw
      rw [hg, hm]
      simp only [hw, Bool.false_eq_true, if_false]

/-- The concrete state of the C1 witness: the consumer far away at
(5, 5) and an enemy adjacent to the target cell (1, 1). -/
def c1State : GameState :=
  { visible := [(1, 1)],
    actors :=
      [{ id := 0, x := 5, y := 5, fighter := { hp := 9, max_hp := 9 },
         ai := AI.hostile },
       { id := 1, x := 1, y := 2, fighter := { hp := 8, max_hp := 8 },
         ai := AI.hostile }],
    inventories := [{ items := [3] }], itemId := 3, itemParent := some 0 }

/-- Witness for C1: a fireball of radius 1 at the visible cell (1, 1)
leaves the distant consumer (index 0) unchanged. -/
theorem fireball_damage_iff_within_radius_witness :
    (FireballDamageConsumable.activate { damage := 3, radius := 1 } 1 1
        c1State).1.actors.length = 2 ∧
    (FireballDamageConsumable.activate { damage := 3, radius := 1 } 1 1
        c1State).1.actors.get ⟨0, by decide⟩ =
      { id := 0, x := 5, y := 5, fighter := { hp := 9, max_hp := 9 },
        ai := AI.hostile } := by
  have h := fireball_damage_iff_within_radius { damage := 3, radius := 1 }
    1 1 c1State (by decide)
  exact ⟨h.1, (h.2 0 (by decide) (by decide)).2 (by decide)⟩

/-- Claim C8: a fireball activation raises Impossible exactly when the
target cell is not visible or no actor lies within the radius of the
target cell, and whenever it raises, no actor has been damaged (the state
is unchanged). -/
theorem fireball_impossible_iff (fc : FireballDamageConsumable)
    (tx ty : Int) (s : GameState) :
    ((fc.activate tx ty s).2 ≠ none ↔
      ((tx, ty) ∉ s.visible ∨
        ∀ a ∈ s.actors, withinRadius a tx ty fc.radius = false)) ∧
    ((fc.activate tx ty s).2 ≠ none → (fc.activate tx ty s).1 = s) := by
  by_cases hvis : (tx, ty) ∈ s.visible
  · by_cases hany :
      s.actors.any (fun a => withinRadius a tx ty fc.radius) = true
    · obtain ⟨a, ha, hw⟩ := List.any_eq_true.mp hany
      constructor
      · simp only [FireballDamageConsumable.activate, if_pos hvis, hany,
          if_true]
        constructor
        · intro hcon; exact absurd rfl hcon
        · rintro (hcon | hall)
          · exact absurd hvis hcon
          · rw [hall a ha] at hw; cases hw
      · intro hcon
        simp [FireballDamageConsumable.activate, if_pos hvis, hany] at hcon
    · have hall : ∀ a ∈ s.actors, withinRadius a tx ty fc.radius = false := by
        intro a ha
        by_contra hc
        exact hany (List.any_eq_true.mpr ⟨a, ha, by simpa using hc⟩)
      have hmap : s.actors.map (fun a =>
          if withinRadius a tx ty fc.radius then
            { a with fighter := a.fighter.take_damage fc.damage }
          else a) = s.actors := by
        refine map_fixes _ _ (fun a ha => ?_)
        rw [hall a ha]; simp
      constructor
      · simp only [FireballDamageConsumable.activate, if_pos hvis, hany,
          if_false]
        constructor
        · intro _; exact Or.inr hall
        · intro _; simp
      · intro _
        simp [FireballDamageConsumable.activate, if_pos hvis, hany, hmap]
  · constructor
    · simp only [FireballDamageConsumable.activate, if_neg hvis]
      constructor
      · intro _; exact Or.inl hvis
      · intro _; simp
    · intro _
      simp [FireballDamageConsumable.activate, if_neg hvis]

/-- Witness for C8: a fireball at a non-visible cell raises and leaves
the concrete state unchanged. -/
theorem fireball_impossible_iff_witness :
    ((FireballDamageConsumable.activate { damage := 3, radius := 1 } 7 7
        c6State).2 ≠ none ↔
      ((7, 7) ∉ c6State.visible ∨
        ∀ a ∈ c6State.actors, withinRadius a 7 7 1 = false)) ∧
    (FireballDamageConsumable.activate { damage := 3, radius := 1 } 7 7
        c6State).1 = c6State :=
  ⟨(fireball_impossible_iff { damage := 3, radius := 1 } 7 7 c6State).1,
    (fireball_impossible_iff { damage := 3, radius := 1 } 7 7 c6State).2
      (by decide)⟩

/-- Claim C4: a confusion activation raises Impossible exactly when the
target cell is not visible, or no actor stands at the target cell, or the
actor standing there is the consumer itself; in every other case nothing
is raised and the confusion effect is applied to the target. -/
theorem confusion_impossible_iff (cc : ConfusionConsumable)
    (consumer : Actor) (tx ty : Int) (s : GameState) :
    ((cc.activate consumer tx ty s).2 ≠ none ↔
      ((tx, ty) ∉ s.visible ∨ targetActorAt s tx ty = none ∨
        ∃ t, targetActorAt s tx ty = some t ∧ t.id = consumer.id)) ∧
    ((cc.activate consumer tx ty s).2 = none →
      ∃ t, targetActorAt s tx ty = some t ∧ t.id ≠ consumer.id ∧
        (cc.activate consumer tx ty s).1.actors = s.actors.map (fun b =>
          if b.id = t.id then
            { b with ai := AI.confused b.ai cc.number_of_turns }
          else b)) := by
  by_cases hvis : (tx, ty) ∈ s.visible
  · cases hta : targetActorAt s tx ty with
    | none =>
      constructor
      · constructor
        · intro _; exact Or.inr (Or.inl rfl)
        · intro _
          simp [ConfusionConsumable.activate, hvis, hta]
      · intro h
        simp [ConfusionConsumable.activate, hvis, hta] at h
    | some t =>
      by_cases hself : t.id = consumer.id
      · constructor
        · constructor
          · intro _; exact Or.inr (Or.inr ⟨t, rfl, hself⟩)
          · intro _
            simp [ConfusionConsumable.activate, hvis, hta, hself]
        · intro h
          simp [ConfusionConsumable.activate, hvis, hta, hself] at h
      · constructor
        · constructor
          · intro hcon
            exact absurd
              (by simp [ConfusionConsumable.activate, hvis, hta, hself]) hcon
          · rintro (hc | hc | ⟨u, hu, hid⟩)
            · exact absurd hvis hc
            · simp at hc
            · cases hu
              exact absurd hid hself
        · intro _
          refine ⟨t, rfl, hself, ?_⟩
          simp [ConfusionConsumable.activate, hvis, hta, hself,
            GameState.consume]
  · constructor
    · constructor
      · intro _; exact Or.inl hvis
      · intro _
        simp [ConfusionConsumable.activate, hvis]
    · intro h
      simp [ConfusionConsumable.activate, hvis] at h

/-- The concrete state of the confusion witnesses: the consumer far away
at (5, 5) and an enemy at the visible cell (1, 2). -/
def c4State : GameState :=
  { visible := [(1, 2)],
    actors :=
      [{ id := 0, x := 5, y := 5, fighter := { hp := 9, max_hp := 9 },
         ai := AI.hostile },
       { id := 1, x := 1, y := 2, fighter := { hp := 8, max_hp := 8 },
         ai := AI.hostile }],
    inventories := [{ items := [3] }], itemId := 3, itemParent := some 0 }

/-- The concrete consumer of the confusion witnesses. -/
def c4Consumer : Actor :=
  { id := 0, x := 5, y := 5, fighter := { hp := 9, max_hp := 9 },
    ai := AI.hostile }

/-- Witness for C4: confusing the visible enemy at (1, 2) raises nothing
and applies the effect. -/
theorem confusion_impossible_iff_witness :
    ∃ t, targetActorAt c4State 1 2 = some t ∧ t.id ≠ c4Consumer.id ∧
      (ConfusionConsumable.activate { number_of_turns := 6 } c4Consumer 1 2
          c4State).1.actors = c4State.actors.map (fun b =>
        if b.id = t.id then { b with ai := AI.confused b.ai 6 } else b) :=
  (confusion_impossible_iff { number_of_turns := 6 } c4Consumer 1 2
    c4State).2 (by decide)

/-- Claim C7: a successful confusion activation replaces the target's AI
by a ConfusedEnemy whose previous_ai is the target's AI from before the
call and whose turns_remaining is the consumable's number_of_turns; every
other actor is unchanged. -/
theorem confusion_preserves_previous_ai (cc : ConfusionConsumable)
    (consumer : Actor) (tx ty : Int) (s : GameState) (t : Actor)
    (hvis : (tx, ty) ∈ s.visible) (hta : targetActorAt s tx ty = some t)
    (hne : t.id ≠ consumer.id) :
    (cc.activate consumer tx ty s).2 = none ∧
    (cc.activate consumer tx ty s).1.actors.length = s.actors.length ∧
    ∀ (i : Nat) (h1 : i < s.actors.length)
      (h2 : i < (cc.activate consumer tx ty s).1.actors.length),
      ((s.actors.get ⟨i, h1⟩).id = t.id →
        (cc.activate consumer tx ty s).1.actors.get ⟨i, h2⟩ =
          { s.actors.get ⟨i, h1⟩ with
            ai := AI.confused (s.actors.get ⟨i, h1⟩).ai cc.number_of_turns }) ∧
      ((s.actors.get ⟨i, h1⟩).id ≠ t.id →
        (cc.activate consumer tx ty s).1.actors.get ⟨i, h2⟩ =
          s.actors.get ⟨i, h1⟩) := by
  have hact : (cc.activate consumer tx ty s).1.actors = s.actors.map (fun b =>
      if b.id = t.id then { b with ai := AI.confused b.ai cc.number_of_turns }
      else b) := by
    simp [ConfusionConsumable.activate, hvis, hta, hne, GameState.consume]
  refine ⟨by simp [ConfusionConsumable.activate, hvis, hta, hne], ?_, ?_⟩
  · rw [hact]; exact List.length_map _ _
  · intro i h1 h2
    have hg := get_congr_list hact i h2
    have hm : (s.actors.map (fun b =>
        if b.id = t.id then { b with ai := AI.confused b.ai cc.number_of_turns }
        else b)).get ⟨i, hact ▸ h2⟩ =
        (fun b => if b.id = t.id then
          { b with ai := AI.confused b.ai cc.number_of_turns }
        else b) (s.actors.get ⟨i, h1⟩) := by simp
    constructor
    · intro hid
      rw [hg, hm]
      simp only [hid, if_true]
    · intro hid
      rw [hg, hm]
      simp only [if_neg hid]

/-- Witness for C7: confusing the enemy at (1, 2) for 6 turns stores its
previous hostile AI inside the ConfusedEnemy. -/
theorem confusion_preserves_previous_ai_witness :
    (ConfusionConsumable.activate { number_of_turns := 6 } c4Consumer 1 2
      c4State).2 = none ∧
    (ConfusionConsumable.activate { number_of_turns := 6 } c4Consumer 1 2
        c4State).1.actors.get ⟨1, by decide⟩ =
      { id := 1, x := 1, y := 2, fighter := { hp := 8, max_hp := 8 },
        ai := AI.confused AI.hostile 6 } := by
  have h := confusion_preserves_previous_ai { number_of_turns := 6 }
    c4Consumer 1 2 c4State
    { id := 1, x := 1, y := 2, fighter := { hp := 8, max_hp := 8 },
      ai := AI.hostile } (by decide) (by decide) (by decide)
  exact ⟨h.1, (h.2.2 1 (by decide) (by decide)).1 (by decide)⟩

/-- Below the maximum, heal sets HP to the capped sum. -/
lemma heal_hp_below_max (f : Fighter) (amount : Nat)
    (hlt : f.hp < f.max_hp) :
    (f.heal amount).1 =
      { hp := min (f.hp + amount) f.max_hp, max_hp := f.max_hp } := by
  unfold Fighter.heal
  rw [if_neg (Nat.ne_of_lt hlt)]

/-- Below the maximum, a positive amount recovers a positive quantity. -/
lemma heal_pos_below_max (f : Fighter) (amount : Nat)
    (hlt : f.hp < f.max_hp) (ha : 1 ≤ amount) : 0 < (f.heal amount).2 := by
  unfold Fighter.heal
  rw [if_neg (Nat.ne_of_lt hlt)]
  have h1 : f.hp < min (f.hp + amount) f.max_hp :=
    lt_min (by omega) hlt
  simpa using Nat.sub_pos_of_lt h1

/-- At the maximum, heal returns the fighter unchanged and recovers
zero. -/
lemma heal_at_max (f : Fighter) (amount : Nat) (h : f.hp = f.max_hp) :
    f.heal amount = (f, 0) := by
  unfold Fighter.heal
  rw [if_pos h]

/-- Claim C2 (amended): for a healing consumable with a positive amount
and a well-formed consumer (HP at most the maximum, list entries with the
consumer's id carrying the consumer's fighter), healing is applied if and
only if the consumer is below maximum HP: below the maximum the
consumer's HP becomes min(hp + amount, max_hp) and the item is consumed;
at the maximum the call raises and returns the state unchanged, so the
item is not consumed. -/
theorem healing_applied_iff_below_max (hc : HealingConsumable)
    (consumer : Actor) (s : GameState) (hamount : 1 ≤ hc.amount)
    (hwf : consumer.fighter.hp ≤ consumer.fighter.max_hp)
    (halias : ∀ b ∈ s.actors, b.id = consumer.id →
      b.fighter = consumer.fighter) :
    ((hc.activate consumer s).2 = none ↔
      consumer.fighter.hp < consumer.fighter.max_hp) ∧
    (consumer.fighter.hp < consumer.fighter.max_hp →
      (hc.activate consumer s).1.actors = s.actors.map (fun b =>
        if b.id = consumer.id then
          { b with fighter :=
              { hp := min (consumer.fighter.hp + hc.amount)
                  consumer.fighter.max_hp,
                max_hp := consumer.fighter.max_hp } }
        else b) ∧
      (hc.activate consumer s).1.inventories =
        consumeInvs s.inventories s.itemParent s.itemId ∧
      (hc.activate consumer s).2 = none) ∧
    (consumer.fighter.hp = consumer.fighter.max_hp →
      hc.activate consumer s = (s, some ActError.alreadyAtMaxHp)) := by
  by_cases hlt : consumer.fighter.hp < consumer.fighter.max_hp
  · have hrec := heal_pos_below_max consumer.fighter hc.amount hlt hamount
    have hhp := heal_hp_below_max consumer.fighter hc.amount hlt
    refine ⟨?_, fun _ => ⟨?_, ?_, ?_⟩, fun heq => absurd heq (Nat.ne_of_lt hlt)⟩
    · simp [HealingConsumable.activate, hrec, hlt]
    · simp only [HealingConsumable.activate, if_pos hrec, GameState.consume]
      rw [hhp]
    · simp [HealingConsumable.activate, hrec, GameState.consume]
    · simp [HealingConsumable.activate, hrec]
  · have heq : consumer.fighter.hp = consumer.fighter.max_hp :=
      Nat.le_antisymm hwf (Nat.not_lt.mp hlt)
    have hheal := heal_at_max consumer.fighter hc.amount heq
    have hrec : ¬ 0 < (consumer.fighter.heal hc.amount).2 := by
      rw [hheal]; simp
    have hmap : s.actors.map (fun b =>
        if b.id = consumer.id then
          { b with fighter := (consumer.fighter.heal hc.amount).1 }
        else b) = s.actors := by
      refine map_fixes _ _ (fun b hb => ?_)
      by_cases hid : b.id = consumer.id
      · rw [if_pos hid, hheal, ← halias b hb hid]
      · rw [if_neg hid]
    refine ⟨?_, fun hcon => absurd hcon hlt, fun _ => ?_⟩
    · simp [HealingConsumable.activate, hrec, hlt]
    · simp only [HealingConsumable.activate, if_neg hrec, hmap]

/-- Counterexample for C2 as stated: a healing consumable whose amount is
zero, used by a consumer below maximum HP (5 of 10), raises Impossible
and does not consume the item, although the claim requires healing and
consumption whenever HP is below the maximum. -/
theorem healing_below_max_counterexample :
    c6Consumer.fighter.hp < c6Consumer.fighter.max_hp ∧
    (HealingConsumable.activate { amount := 0 } c6Consumer c6State).2 =
      some ActError.alreadyAtMaxHp ∧
    (HealingConsumable.activate { amount := 0 } c6Consumer
      c6State).1.inventories = c6State.inventories := by decide

/-- Witness for C2: a potion of amount 4 on the consumer at 5 of 10 HP
heals (no Impossible). -/
theorem healing_applied_iff_below_max_witness :
    1 ≤ (4 : Nat) ∧
    ((HealingConsumable.activate { amount := 4 } c6Consumer c6State).2 =
        none ↔
      c6Consumer.fighter.hp < c6Consumer.fighter.max_hp) :=
  ⟨by decide,
    (healing_applied_iff_below_max { amount := 4 } c6Consumer c6State
      (by decide) (by decide) (by decide)).1⟩

/-- Unfolding equation of the selection loop on a cons cell. -/
lemma lightningScan_cons (consumer : Actor) (vis : List (Int × Int))
    (a : Actor) (rest : List Actor) (best : Option Actor) (bd : Int) :
    lightningScan consumer vis (a :: rest) best bd =
      if a.id ≠ consumer.id ∧ (a.x, a.y) ∈ vis then
        if distSq consumer.x consumer.y a.x a.y < bd then
          lightningScan consumer vis rest (some a)
            (distSq consumer.x consumer.y a.x a.y)
        else lightningScan consumer vis rest best bd
      else lightningScan consumer vis rest best bd := rfl

/-- Invariant of the selection loop: the final bound never grows, bounds
the distance of every qualifying actor of the scanned list, and the final
best is either the initial one (with the initial bound) or a qualifying
actor of the list whose distance is the final bound and beats the initial
bound. -/
lemma lightningScan_inv (consumer : Actor) (vis : List (Int × Int)) :
    ∀ (l : List Actor) (best : Option Actor) (bd : Int),
      (lightningScan consumer vis l best bd).2 ≤ bd ∧
      (∀ a ∈ l, a.id ≠ consumer.id → (a.x, a.y) ∈ vis →
        (lightningScan consumer vis l best bd).2 ≤
          distSq consumer.x consumer.y a.x a.y) ∧
      (((lightningScan consumer vis l best bd).1 = best ∧
          (lightningScan consumer vis l best bd).2 = bd) ∨
        ∃ t, (lightningScan consumer vis l best bd).1 = some t ∧
          t ∈ l ∧ t.id ≠ consumer.id ∧ (t.x, t.y) ∈ vis ∧
          (lightningScan consumer vis l best bd).2 =
            distSq consumer.x consumer.y t.x t.y ∧
          distSq consumer.x consumer.y t.x t.y < bd) := by
  intro l
  induction l with
  | nil =>
    intro best bd
    exact ⟨le_refl _, by simp, Or.inl ⟨rfl, rfl⟩⟩
  | cons a rest ih =>
    intro best bd
    by_cases hP : a.id ≠ consumer.id ∧ (a.x, a.y) ∈ vis
    · by_cases hd : distSq consumer.x consumer.y a.x a.y < bd
      · rw [lightningScan_cons, if_pos hP, if_pos hd]
        obtain ⟨ih1, ih2, ih3⟩ :=
          ih (some a) (distSq consumer.x consumer.y a.x a.y)
        refine ⟨le_trans ih1 (le_of_lt hd), ?_, ?_⟩
        · intro b hb hbne hbvis
          rcases List.mem_cons.mp hb with hba | hbr
          · cases hba; exact ih1
          · exact ih2 b hbr hbne hbvis
        · rcases ih3 with ⟨h1, h2⟩ | ⟨t, ht1, ht2, ht3, ht4, ht5, ht6⟩
          · exact Or.inr ⟨a, h1, List.mem_cons_self a rest, hP.1, hP.2,
              h2, hd⟩
          · exact Or.inr ⟨t, ht1, List.mem_cons_of_mem a ht2, ht3, ht4,
              ht5, lt_trans ht6 hd⟩
      · rw [lightningScan_cons, if_pos hP, if_neg hd]
        obtain ⟨ih1, ih2, ih3⟩ := ih best bd
        refine ⟨ih1, ?_, ?_⟩
        · intro b hb hbne hbvis
          rcases List.mem_cons.mp hb with hba | hbr
          · cases hba; exact le_trans ih1 (Int.not_lt.mp hd)
          · exact ih2 b hbr hbne hbvis
        · rcases ih3 with h | ⟨t, ht1, ht2, ht3, ht4, ht5, ht6⟩
          · exact Or.inl h
          · exact Or.inr ⟨t, ht1, List.mem_cons_of_mem a ht2, ht3, ht4,
              ht5, ht6⟩
    · rw [lightningScan_cons, if_neg hP]
      obtain ⟨ih1, ih2, ih3⟩ := ih best bd
      refine ⟨ih1, ?_, ?_⟩
      · intro b hb hbne hbvis
        rcases List.mem_cons.mp hb with hba | hbr
        · cases hba; exact absurd ⟨hbne, hbvis⟩ hP
        · exact ih2 b hbr hbne hbvis
      · rcases ih3 with h | ⟨t, ht1, ht2, ht3, ht4, ht5, ht6⟩
        · exact Or.inl h
        · exact Or.inr ⟨t, ht1, List.mem_cons_of_mem a ht2, ht3, ht4,
            ht5, ht6⟩

/-- Claim C3 (amended): a lightning activation succeeds exactly when some
actor other than the consumer is visible and at distance strictly below
maximum_range + 1 of the consumer (the code's in-range threshold); it then
damages a closest such actor and consumes the item, and otherwise it
raises Impossible and leaves the state unchanged. -/
theorem lightning_hits_closest (lc : LightningDamageConsumable)
    (consumer : Actor) (s : GameState) :
    ((lc.activate consumer s).2 = none ↔
      lightningCandidates lc consumer s ≠ []) ∧
    (lightningCandidates lc consumer s = [] →
      lc.activate consumer s = (s, some ActError.noEnemyInRange)) ∧
    (lightningCandidates lc consumer s ≠ [] → ∃ t,
      t ∈ lightningCandidates lc consumer s ∧
      (∀ u ∈ lightningCandidates lc consumer s,
        distSq consumer.x consumer.y t.x t.y ≤
          distSq consumer.x consumer.y u.x u.y) ∧
      (lc.activate consumer s).1.actors = s.actors.map (fun b =>
        if b.id = t.id then
          { b with fighter := b.fighter.take_damage lc.damage }
        else b) ∧
      (lc.activate consumer s).1.inventories =
        consumeInvs s.inventories s.itemParent s.itemId ∧
      (lc.activate consumer s).2 = none) := by
  obtain ⟨inv1, inv2, inv3⟩ := lightningScan_inv consumer s.visible s.actors
    none (((lc.maximum_range : Int) + 1) * ((lc.maximum_range : Int) + 1))
  cases hscan : lightningScan consumer s.visible s.actors none
      (((lc.maximum_range : Int) + 1) * ((lc.maximum_range : Int) + 1)) with
  | mk b bd =>
    rw [hscan] at inv1 inv2 inv3
    cases b with
    | none =>
      have hbd : bd =
          ((lc.maximum_range : Int) + 1) * ((lc.maximum_range : Int) + 1) := by
        rcases inv3 with ⟨_, h⟩ | ⟨t, ht, _⟩
        · exact h
        · cases ht
      have hnone : lightningCandidates lc consumer s = [] := by
        rw [List.eq_nil_iff_forall_not_mem]
        intro c hc
        rw [lightningCandidates, List.mem_filter] at hc
        obtain ⟨hcm, hcp⟩ := hc
        rw [decide_eq_true_eq] at hcp
        obtain ⟨hcne, hcvis, hclt⟩ := hcp
        have := inv2 c hcm hcne hcvis
        rw [hbd] at this
        exact absurd hclt (Int.not_lt.mpr this)
      have hres : lc.activate consumer s = (s, some ActError.noEnemyInRange) := by
        simp [LightningDamageConsumable.activate, hscan]
      refine ⟨?_, fun _ => hres, fun hcon => absurd hnone hcon⟩
      rw [hres, hnone]
      simp
    | some t =>
      rcases inv3 with ⟨h, _⟩ | ⟨t', ht1, ht2, ht3, ht4, ht5, ht6⟩
      · simp at h
      have htt : t = t' := by simpa using ht1
      subst htt
      have htc : t ∈ lightningCandidates lc consumer s := by
        rw [lightningCandidates, List.mem_filter, decide_eq_true_eq]
        exact ⟨ht2, ht3, ht4, ht6⟩
      have hne : lightningCandidates lc consumer s ≠ [] := by
        intro h
        rw [h] at htc
        cases htc
      have hmin : ∀ u ∈ lightningCandidates lc consumer s,
          distSq consumer.x consumer.y t.x t.y ≤
            distSq consumer.x consumer.y u.x u.y := by
        intro u hu
        rw [lightningCandidates, List.mem_filter, decide_eq_true_eq] at hu
        obtain ⟨hum, hune, huvis, _⟩ := hu
        have := inv2 u hum hune huvis
        rw [ht5] at this
        exact this
      refine ⟨?_, fun h => absurd h hne, fun _ => ⟨t, htc, hmin, ?_, ?_, ?_⟩⟩
      · constructor
        · intro _; exact hne
        · intro _
          simp [LightningDamageConsumable.activate, hscan]
      · simp [LightningDamageConsumable.activate, hscan, GameState.consume]
      · simp [LightningDamageConsumable.activate, hscan, GameState.consume]
      · simp [LightningDamageConsumable.activate, hscan]

/-- The concrete consumer of the lightning counterexample and witness,
standing at the origin. -/
def c3Consumer : Actor :=
  { id := 0, x := 0, y := 0, fighter := { hp := 10, max_hp := 10 },
    ai := AI.hostile }

/-- The concrete state of the lightning counterexample and witness: one
visible enemy diagonally adjacent at (1, 1), at Euclidean distance
sqrt 2 from the consumer. -/
def c3State : GameState :=
  { visible := [(0, 0), (1, 1)],
    actors :=
      [c3Consumer,
       { id := 1, x := 1, y := 1, fighter := { hp := 8, max_hp := 8 },
         ai := AI.hostile }],
    inventories := [{ items := [3] }], itemId := 3, itemParent := some 0 }

/-- Counterexample for C3 as stated: with maximum_range 1, every actor
other than the consumer is at distance beyond the maximum range (the
enemy at (1, 1) has squared distance 2 > 1 * 1, i.e. distance sqrt 2 > 1),
so by the claim the activation should raise Impossible; but the code
compares the distance against maximum_range + 1.0 (sqrt 2 < 2), raises
nothing and damages that enemy. -/
theorem lightning_max_range_counterexample :
    (∀ a ∈ c3State.actors, a.id ≠ c3Consumer.id →
      ¬ distSq c3Consumer.x c3Consumer.y a.x a.y ≤ (1 : Int) * 1) ∧
    (LightningDamageConsumable.activate { damage := 3, maximum_range := 1 }
      c3Consumer c3State).2 = none ∧
    (LightningDamageConsumable.activate { damage := 3, maximum_range := 1 }
        c3Consumer c3State).1.actors.get ⟨1, by decide⟩ =
      { id := 1, x := 1, y := 1, fighter := { hp := 5, max_hp := 8 },
        ai := AI.hostile } := by decide

/-- Witness for C3: on the concrete state the candidate list is nonempty,
so the amended theorem yields a successful strike. -/
theorem lightning_hits_closest_witness :
    lightningCandidates { damage := 3, maximum_range := 1 } c3Consumer
      c3State ≠ [] ∧
    (LightningDamageConsumable.activate { damage := 3, maximum_range := 1 }
      c3Consumer c3State).2 = none :=
  ⟨by decide,
    (lightning_hits_closest { damage := 3, maximum_range := 1 } c3Consumer
      c3State).1.mpr (by decide)⟩
